import Mathlib

/-
Verification development for the audio streaming bridge
(`websocket/audio_processor.py`, `websocket/websocket_handler.py`,
`websocket/transcription_stream.py`, `src/asr/riva_websocket_bridge.py`).

Samples are modelled as exact rationals; machine byte strings as lists of
naturals below 256.  Pure per-session transforms become pure Lean
functions; the stateful handlers become explicit state-passing functions
that additionally return the list of messages/effects they emit.
-/

namespace AudioProc

/-- State of `AudioProcessor` (websocket/audio_processor.py).
Configuration fields (`vad_threshold`, `silence_chunks`,
`max_segment_samples`) are carried in the same structure, as in the
Python object.  `audio_buffer` (a deque that is only ever cleared, never
read) is omitted; the torchaudio resampler is not modelled — the model
covers the `sample_rate == target_sample_rate` path, which is the one the
websocket handler exercises (it calls `process_chunk` with the default
`sample_rate=16000`). -/
structure AudioProcessor where
  vad_threshold : ℚ
  silence_chunks : ℕ
  max_segment_samples : ℕ
  current_segment : List ℚ
  silence_counter : ℕ
deriving Repr, DecidableEq

/-- Fresh processor for a given configuration, as set up by `__init__`:
empty segment, zero silence counter. -/
def AudioProcessor.init (thr : ℚ) (silenceChunks maxSamples : ℕ) : AudioProcessor :=
  { vad_threshold := thr
    silence_chunks := silenceChunks
    max_segment_samples := maxSamples
    current_segment := []
    silence_counter := 0 }

/-- First-order high-pass filter from `_detect_voice_activity`:
`filtered[0] = x[0]`, `filtered[i] = α·(filtered[i-1] + x[i] − x[i-1])`
with `α = 0.95`.  Helper that carries the previous filtered and raw
values. -/
def highpassAux (prevF prevX : ℚ) : List ℚ → List ℚ
  | [] => []
  | x :: xs =>
    let f := (19 / 20) * (prevF + x - prevX)
    f :: highpassAux f x xs

/-- High-pass filter applied to a whole chunk (first sample passes
through unchanged, as in the Python loop starting at index 1). -/
def highpass : List ℚ → List ℚ
  | [] => []
  | x :: xs => x :: highpassAux x x xs

/-- Mean of squares of a sample list (`np.mean(audio_float ** 2)`);
`0` for the empty list (that case is never reached by the caller). -/
def meanSq (xs : List ℚ) : ℚ :=
  (xs.map (fun x => x ^ 2)).sum / (xs.length : ℚ)

/-- Number of adjacent sign changes (`audio_float[i] * audio_float[i+1] < 0`). -/
def zeroCrossings : List ℚ → ℕ
  | x :: y :: xs => (if x * y < 0 then 1 else 0) + zeroCrossings (y :: xs)
  | _ => 0

/-- Zero-crossing rate: `zero_crossings / len` when the chunk has more
than one sample, else `0`. -/
def zcr (xs : List ℚ) : ℚ :=
  if 1 < xs.length then (zeroCrossings xs : ℚ) / (xs.length : ℚ) else 0

/-- Energy test `rms_energy > vad_threshold` where
`rms_energy = sqrt(mean(filtered²))`.  Over the rationals this is stated
without the square root, using the exact characterization
`thr < sqrt m ↔ thr < 0 ∨ thr² < m` (valid for `m ≥ 0`), proved below in
`hasVoiceEnergy_iff_sqrt`. -/
def hasVoiceEnergy (thr m : ℚ) : Bool :=
  decide (thr < 0 ∨ thr ^ 2 < m)

/-- `AudioProcessor._detect_voice_activity`: empty chunk reports no
voice; otherwise high-pass filter (skipped for single-sample chunks),
RMS-energy threshold test, and zero-crossing-rate band `(0.01, 0.35)`,
both required. -/
def detect_voice_activity (thr : ℚ) (audio : List ℚ) : Bool :=
  if audio.length = 0 then false
  else
    let filtered := if 1 < audio.length then highpass audio else audio
    let energyOk := hasVoiceEnergy thr (meanSq filtered)
    let z := zcr filtered
    let zcrOk := decide ((1 / 100 : ℚ) < z ∧ z < 35 / 100)
    energyOk && zcrOk

/-- `AudioProcessor.process_chunk`, after byte decoding, on a chunk of
normalized samples.  Returns the updated state and the
`is_end_of_segment` flag (the returned `audio_array` is the input chunk
itself and is not used by the caller, so it is not returned here).
Branch order follows the source: forced cut when
`len(current_segment) + len(chunk) >= max_segment_samples`; else reset
or bump the silence counter, cutting when the counter reaches
`silence_chunks` with a non-empty pending segment; the chunk is appended
only when no cut fired. -/
def process_chunk (st : AudioProcessor) (audio : List ℚ) : AudioProcessor × Bool :=
  if st.max_segment_samples ≤ st.current_segment.length + audio.length then
    (st, true)
  else if detect_voice_activity st.vad_threshold audio then
    ({ st with silence_counter := 0
               current_segment := st.current_segment ++ audio }, false)
  else if st.silence_chunks ≤ st.silence_counter + 1 ∧
          st.current_segment.length ≠ 0 then
    ({ st with silence_counter := st.silence_counter + 1 }, true)
  else
    ({ st with silence_counter := st.silence_counter + 1
               current_segment := st.current_segment ++ audio }, false)

/-- `AudioProcessor.get_segment`: drain the pending segment and reset
the silence counter; `none` (and no state change) when nothing is
pending. -/
def get_segment (st : AudioProcessor) : AudioProcessor × Option (List ℚ) :=
  if st.current_segment.isEmpty then (st, none)
  else ({ st with current_segment := [], silence_counter := 0 },
        some st.current_segment)

/-- `AudioProcessor.reset`: clear segment and counter. -/
def reset (st : AudioProcessor) : AudioProcessor :=
  { st with current_segment := [], silence_counter := 0 }

/-- One step of the websocket handler's audio path restricted to the
segmenter: process the chunk and, when a boundary is reported, drain the
segment (as `_handle_audio_data` does); returns the emitted segment when
one was drained. -/
def runStep (st : AudioProcessor) (audio : List ℚ) :
    AudioProcessor × Option (List ℚ) :=
  let (st1, isEnd) := process_chunk st audio
  if isEnd then get_segment st1 else (st1, none)

/-- Run of the segmenter over a whole chunk list, collecting every
emitted segment in order. -/
def runProcess (st : AudioProcessor) : List (List ℚ) → AudioProcessor × List (List ℚ)
  | [] => (st, [])
  | c :: rest =>
    let (st1, seg?) := runStep st c
    let (st2, segs) := runProcess st1 rest
    (st2, seg?.toList ++ segs)

/-- The `is_end_of_segment` flags produced by feeding the chunks one
after another, with no draining in between. -/
def processFlags (st : AudioProcessor) : List (List ℚ) → List Bool
  | [] => []
  | c :: rest =>
    let (st1, isEnd) := process_chunk st c
    isEnd :: processFlags st1 rest

/-- Concatenated samples of the chunks that were actually appended along
a run (those on which no cut fired). -/
def keptSamples (st : AudioProcessor) : List (List ℚ) → List ℚ
  | [] => []
  | c :: rest =>
    let (st1, isEnd) := process_chunk st c
    if isEnd then keptSamples (get_segment st1).1 rest
    else c ++ keptSamples st1 rest

/-- Decoding of one little-endian signed 16-bit sample to a normalized
float in `[-1, 1)` (`np.frombuffer(..., dtype='int16') / 32768.0`). -/
def int16ToSample (lo hi : ℕ) : ℚ :=
  let v : ℤ := (lo : ℤ) + 256 * (hi : ℤ)
  let s : ℤ := if 32768 ≤ v then v - 65536 else v
  (s : ℚ) / 32768

/-- Successive byte pairs decoded to samples (caller guarantees an even
byte count). -/
def pairsToSamples : List ℕ → List ℚ
  | lo :: hi :: rest => int16ToSample lo hi :: pairsToSamples rest
  | _ => []

/-- Byte decoding step of `process_chunk` for `dtype='int16'`
(`np.frombuffer`): an odd byte count raises `ValueError`, modelled as
`Except.error`; bytes are naturals below 256. -/
def decode_int16 (bytes : List ℕ) : Except String (List ℚ) :=
  if bytes.length % 2 = 0 then Except.ok (pairsToSamples bytes)
  else Except.error "buffer size must be a multiple of element size"

end AudioProc

namespace Transcription

/-- Outcome of one streaming call into the external Riva ASR client
(`riva_client.stream_transcribe`, an external collaborator):
`events t txt` — the stream yielded at least one event and the last one
had type `t` and text `txt`; `noEvents` — the stream ended without
yielding; `failure` — connecting failed or the call raised. -/
inductive RivaOutcome
  | events (etype : String) (etext : String)
  | noEvents
  | failure (emsg : String)
deriving DecidableEq, Repr

/-- Abstract ASR backend: for each submitted segment and finality flag,
the outcome of the streaming call. -/
def Oracle : Type := List ℚ → Bool → RivaOutcome

/-- State of `TranscriptionStream` (websocket/transcription_stream.py).
`interim_text` models the source's partial-result transcript field. -/
structure TranscriptionStream where
  segment_id : ℕ
  interim_text : String
  final_transcripts : List String
  current_time_offset : ℚ
deriving DecidableEq, Repr

/-- `TranscriptionStream.reset` / freshly constructed stream state. -/
def TranscriptionStream.freshState : TranscriptionStream :=
  { segment_id := 0
    interim_text := ""
    final_transcripts := []
    current_time_offset := 0 }

/-- An outbound JSON message, restricted to the fields the claims are
about: its `type`, its `segment_id` (absent on plain error/status
messages), its `text`, and its `error` payload. -/
structure OutMsg where
  mtype : String
  segment_id : Option ℕ
  text : Option String
  err : Option String
deriving DecidableEq, Repr

/-- `TranscriptionStream.transcribe_segment`: stream the segment to the
backend, take the last event as the result, stamp it with the current
`segment_id` and duration; on a final result with non-empty text append
it to the accumulated transcript, advance the time offset and bump
`segment_id`; on a non-final result record the interim text; failures
become an `error` result (which also carries the current `segment_id`)
with no state update. -/
def transcribe_segment (oracle : Oracle) (ts : TranscriptionStream)
    (seg : List ℚ) (sampleRate : ℚ) (is_final : Bool) :
    TranscriptionStream × OutMsg :=
  let duration := (seg.length : ℚ) / sampleRate
  match oracle seg is_final with
  | RivaOutcome.failure m =>
    (ts, { mtype := "error", segment_id := some ts.segment_id,
           text := none, err := some m })
  | RivaOutcome.noEvents =>
    let msg : OutMsg :=
      { mtype := "transcription", segment_id := some ts.segment_id,
        text := some "", err := none }
    if is_final then (ts, msg) else ({ ts with interim_text := "" }, msg)
  | RivaOutcome.events t txt =>
    let msg : OutMsg :=
      { mtype := t, segment_id := some ts.segment_id,
        text := some txt, err := none }
    if is_final then
      if txt = "" then (ts, msg)
      else
        ({ ts with final_transcripts := ts.final_transcripts ++ [txt]
                   current_time_offset := ts.current_time_offset + duration
                   segment_id := ts.segment_id + 1 }, msg)
    else ({ ts with interim_text := txt }, msg)

/-- `TranscriptionStream.get_full_transcript`: finalized texts joined
with spaces, the interim text appended when non-empty, whitespace
trimmed at both ends. -/
def get_full_transcript (ts : TranscriptionStream) : String :=
  let full := String.intercalate " " ts.final_transcripts
  let full := if ts.interim_text ≠ "" then full ++ " " ++ ts.interim_text else full
  full.trim

end Transcription

namespace WsHandler

open AudioProc Transcription

/-- Per-client state held in `WebSocketHandler.connection_states`
(websocket/websocket_handler.py). -/
structure HandlerConn where
  is_recording : Bool
  audio_processor : AudioProcessor
  transcription_stream : TranscriptionStream
  total_audio_duration : ℚ
  total_segments : ℕ
deriving DecidableEq, Repr

/-- Client state installed at connect time: default segmenter
configuration (`vad_threshold = 0.02`, `silence_chunks = 5`,
`max_segment_samples = 80000`), fresh transcription state, not
recording, zero totals. -/
def initHandlerConn : HandlerConn :=
  { is_recording := false
    audio_processor := AudioProcessor.init (1 / 50) 5 80000
    transcription_stream := TranscriptionStream.freshState
    total_audio_duration := 0
    total_segments := 0 }

/-- Error message produced by `_handle_audio_data`'s exception handler
(`send_error(websocket, f"Audio processing failed: {e}")`). -/
def audioFailMsg (e : String) : OutMsg :=
  { mtype := "error", segment_id := none, text := none,
    err := some ("Audio processing failed: " ++ e) }

/-- `WebSocketHandler._handle_audio_data`: ignore audio while not
recording; decode (a decode failure is caught and reported to the
client as an `error` message, the state untouched); feed the segmenter;
on a segment boundary drain the segment and, when non-empty, transcribe
it as final, send the result and bump the totals; otherwise, when the
pending segment exceeds one second (16000 samples), send an interim
result typed `partial`. -/
def handle_audio_data (oracle : Oracle) (st : HandlerConn) (data : List ℕ) :
    HandlerConn × List OutMsg :=
  if st.is_recording = false then (st, [])
  else
    match decode_int16 data with
    | Except.error e => (st, [audioFailMsg e])
    | Except.ok samples =>
      let (pst, isEnd) := process_chunk st.audio_processor samples
      if isEnd then
        match get_segment pst with
        | (pst2, some seg) =>
          let (ts2, msg) :=
            transcribe_segment oracle st.transcription_stream seg 16000 true
          ({ st with audio_processor := pst2
                     transcription_stream := ts2
                     total_segments := st.total_segments + 1
                     total_audio_duration :=
                       st.total_audio_duration + (seg.length : ℚ) / 16000 },
           [msg])
        | (pst2, none) => ({ st with audio_processor := pst2 }, [])
      else if 16000 < pst.current_segment.length then
        let (ts2, msg) :=
          transcribe_segment oracle st.transcription_stream
            pst.current_segment 16000 false
        ({ st with audio_processor := pst, transcription_stream := ts2 },
         [{ msg with mtype := "partial" }])
      else ({ st with audio_processor := pst }, [])

/-- `WebSocketHandler._start_recording`: reset segmenter and
transcription state, mark recording, confirm with `recording_started`. -/
def start_recording (st : HandlerConn) : HandlerConn × List OutMsg :=
  ({ st with audio_processor := AudioProc.reset st.audio_processor
             transcription_stream := TranscriptionStream.freshState
             is_recording := true },
   [{ mtype := "recording_started", segment_id := none, text := none,
      err := none }])

/-- The `recording_stopped` message, carrying the full transcript of the
given transcription state. -/
def stopMsgOf (ts : TranscriptionStream) : OutMsg :=
  { mtype := "recording_stopped", segment_id := none,
    text := some (get_full_transcript ts), err := none }

/-- `WebSocketHandler._stop_recording`: stop recording, flush any
pending segment through the backend as a final result, then send
`recording_stopped` carrying the full transcript; the totals are not
updated by the flush. -/
def stop_recording (oracle : Oracle) (st : HandlerConn) :
    HandlerConn × List OutMsg :=
  let st1 := { st with is_recording := false }
  let (pst, seg?) := get_segment st1.audio_processor
  let (st2, msgs) :=
    match seg? with
    | some seg =>
      let (ts2, msg) :=
        transcribe_segment oracle st1.transcription_stream seg 16000 true
      ({ st1 with audio_processor := pst, transcription_stream := ts2 }, [msg])
    | none => ({ st1 with audio_processor := pst }, [])
  (st2, msgs ++ [stopMsgOf st2.transcription_stream])

/-- Fold step: handle one audio chunk, accumulating emitted messages. -/
def sessionStep (oracle : Oracle) (acc : HandlerConn × List OutMsg)
    (data : List ℕ) : HandlerConn × List OutMsg :=
  let (st, msgs) := acc
  let (st2, ms) := handle_audio_data oracle st data
  (st2, msgs ++ ms)

/-- One whole recording session on a fresh connection: `start_recording`,
then the given audio chunks in order, then `stop_recording`; returns all
outbound messages in emission order. -/
def run_session (oracle : Oracle) (chunks : List (List ℕ)) : List OutMsg :=
  let (st1, m1) := start_recording initHandlerConn
  let (st2, m2) := chunks.foldl (sessionStep oracle) (st1, m1)
  let (_, m3) := stop_recording oracle st2
  m2 ++ m3

end WsHandler

namespace Dispatch

/-- Outcome of structured decoding of a bytes frame, the composition of
`message.decode('utf-8')` and `json.loads` (both external stdlib
collaborators): UTF-8 decoding may fail, JSON parsing of the decoded
text may fail, or parsing yields an object whose `type` field is
`mtype`. -/
inductive BytesDecodeOutcome
  | utf8Fail
  | jsonFail
  | jsonOk (mtype : Option String)
deriving DecidableEq, Repr

/-- Where a frame ends up in `WebSocketHandler.handle_message` /
`_handle_control_message`. -/
inductive Route
  | controlHandled (mtype : Option String)
  | audioHandled
  | invalidJsonErrorSent
deriving DecidableEq, Repr

/-- Routing of a binary frame by `WebSocketHandler.handle_message`
(lines 206-214) combined with `_handle_control_message`'s defensive
branches (lines 240-253 and 271-272): a frame whose first byte is 123
(the opening-brace byte) goes to the control handler, which re-routes it
to the audio handler on `UnicodeDecodeError` and answers with an
`Invalid JSON` error on `json.JSONDecodeError`; any other first byte
goes straight to the audio handler. -/
def handle_message_bytes (outcome : BytesDecodeOutcome) (data : List ℕ) : Route :=
  if data.head? = some 123 then
    match outcome with
    | BytesDecodeOutcome.utf8Fail => Route.audioHandled
    | BytesDecodeOutcome.jsonFail => Route.invalidJsonErrorSent
    | BytesDecodeOutcome.jsonOk t => Route.controlHandled t
  else Route.audioHandled

end Dispatch

namespace Bridge

/-- Per-connection record stored by `ConnectionManager`
(src/asr/riva_websocket_bridge.py).  `has_queue`/`has_task` model the
presence of the `audio_queue`/`transcription_task` keys;
`enable_interim` models the stored `enable_partials` flag. -/
structure ConnData where
  session_active : Bool
  has_queue : Bool
  has_task : Bool
  enable_interim : Bool
  total_audio_chunks : ℕ
  total_transcriptions : ℕ
deriving DecidableEq, Repr

/-- `ConnectionManager`: registry keyed by connection id plus the
running connection count (a Python int, so `ℤ`). -/
structure ConnectionManager where
  connections : String → Option ConnData
  connection_count : ℤ

/-- Side effects and outbound messages of the bridge, tagged with the
connection id they concern. -/
inductive BridgeEvent
  | sendMsg (cid : String) (mtype : String)
  | sendError (cid : String) (etext : String)
  | closeRiva (cid : String)
  | cancelTask (cid : String)
  | awaitTask (cid : String)
  | spawnWorker (cid : String)
deriving DecidableEq, Repr

/-- Registry update at one key. -/
def setConn (mgr : ConnectionManager) (cid : String) (cd : ConnData) :
    ConnectionManager :=
  { mgr with connections := fun k => if k = cid then some cd else mgr.connections k }

/-- `ConnectionManager.add_connection` (the generated uuid is passed in):
fresh idle record, count incremented. -/
def add_connection (mgr : ConnectionManager) (cid : String) : ConnectionManager :=
  { connections := fun k =>
      if k = cid then
        some { session_active := false, has_queue := false, has_task := false,
               enable_interim := false, total_audio_chunks := 0,
               total_transcriptions := 0 }
      else mgr.connections k
    connection_count := mgr.connection_count + 1 }

/-- `ConnectionManager.remove_connection`: when the id is registered,
close the connection's Riva client, delete the registry entry and
decrement the count; otherwise do nothing.  No other effect is
performed — in particular no task cancellation. -/
def remove_connection (mgr : ConnectionManager) (cid : String) :
    ConnectionManager × List BridgeEvent :=
  match mgr.connections cid with
  | none => (mgr, [])
  | some _ =>
    ({ connections := fun k => if k = cid then none else mgr.connections k
       connection_count := mgr.connection_count - 1 },
     [BridgeEvent.closeRiva cid])

/-- `RivaWebSocketBridge._start_transcription_session`: reject with an
error when a session is already active; reject when connecting to Riva
fails (`connectOk` is the outcome of the external `riva_client.connect`);
otherwise install queue and worker task, mark the session active and
confirm with `session_started`. -/
def start_transcription_session (mgr : ConnectionManager) (cid : String)
    (connectOk : Bool) (wantInterim : Bool) :
    ConnectionManager × List BridgeEvent :=
  match mgr.connections cid with
  | none => (mgr, [])
  | some cd =>
    if cd.session_active then
      (mgr, [BridgeEvent.sendError cid "Transcription session already active"])
    else if connectOk = false then
      (mgr, [BridgeEvent.sendError cid "Failed to connect to Riva server"])
    else
      (setConn mgr cid
        { cd with has_queue := true, session_active := true,
                  enable_interim := wantInterim, has_task := true },
       [BridgeEvent.spawnWorker cid, BridgeEvent.sendMsg cid "session_started"])

/-- `RivaWebSocketBridge._stop_transcription_session`: reject with an
error when no session is active; otherwise cancel the worker task and
await it, clear the session fields and confirm with `session_stopped`. -/
def stop_transcription_session (mgr : ConnectionManager) (cid : String) :
    ConnectionManager × List BridgeEvent :=
  match mgr.connections cid with
  | none => (mgr, [])
  | some cd =>
    if cd.session_active = false then
      (mgr, [BridgeEvent.sendError cid "No active transcription session"])
    else
      (setConn mgr cid
        { cd with session_active := false, has_queue := false, has_task := false },
       (if cd.has_task then [BridgeEvent.cancelTask cid, BridgeEvent.awaitTask cid]
        else []) ++ [BridgeEvent.sendMsg cid "session_stopped"])

/-- `RivaWebSocketBridge._handle_audio_data`: drop audio silently unless
a session is active; otherwise enqueue it and count the chunk. -/
def bridge_handle_audio (mgr : ConnectionManager) (cid : String) :
    ConnectionManager × List BridgeEvent :=
  match mgr.connections cid with
  | none => (mgr, [])
  | some cd =>
    if cd.session_active then
      if cd.has_queue then
        (setConn mgr cid { cd with total_audio_chunks := cd.total_audio_chunks + 1 },
         [])
      else (mgr, [])
    else (mgr, [])

/-- Inbound client frames of the bridge protocol, with the outcomes of
the external Riva connect call carried on `start`. -/
inductive ClientMsg
  | startMsg (connectOk : Bool) (wantInterim : Bool)
  | stopMsg
  | audioMsg
  | pingMsg
  | unknownMsg (t : String)
deriving DecidableEq, Repr

/-- `RivaWebSocketBridge._handle_message` / `_handle_control_message`
dispatch for one inbound frame. -/
def handle_client_msg (mgr : ConnectionManager) (cid : String) :
    ClientMsg → ConnectionManager × List BridgeEvent
  | ClientMsg.startMsg ok wi => start_transcription_session mgr cid ok wi
  | ClientMsg.stopMsg => stop_transcription_session mgr cid
  | ClientMsg.audioMsg => bridge_handle_audio mgr cid
  | ClientMsg.pingMsg =>
    match mgr.connections cid with
    | none => (mgr, [])
    | some _ => (mgr, [BridgeEvent.sendMsg cid "pong"])
  | ClientMsg.unknownMsg t =>
    match mgr.connections cid with
    | none => (mgr, [])
    | some _ => (mgr, [BridgeEvent.sendError cid ("Unknown message type: " ++ t)])

/-- Fold step over inbound frames, accumulating events. -/
def connStep (cid : String) (acc : ConnectionManager × List BridgeEvent)
    (m : ClientMsg) : ConnectionManager × List BridgeEvent :=
  let (mgr, evs) := acc
  let (mgr2, e) := handle_client_msg mgr cid m
  (mgr2, evs ++ e)

/-- `RivaWebSocketBridge.handle_connection` after the connection is
registered: process the client's frames in order, then — on any exit
path (client close, error, or end of stream), via the `finally` block —
call `remove_connection`. -/
def handle_connection_run (mgr : ConnectionManager) (cid : String)
    (msgs : List ClientMsg) : ConnectionManager × List BridgeEvent :=
  let (mgr1, evs) := msgs.foldl (connStep cid) (mgr, [])
  let (mgr2, evs2) := remove_connection mgr1 cid
  (mgr2, evs ++ evs2)

end Bridge

namespace AudioProc

/-- Faithfulness of the square-root-free energy test:
`hasVoiceEnergy thr m` holds exactly when `thr < sqrt m` over the reals,
which is the comparison `rms_energy > vad_threshold` the source
performs (`meanSq_nonneg` below shows every actual argument is a
non-negative mean square). -/
theorem hasVoiceEnergy_iff_sqrt (thr m : ℚ) :
    hasVoiceEnergy thr m = true ↔ (thr : ℝ) < Real.sqrt (m : ℝ) := by
  unfold hasVoiceEnergy
  rw [decide_eq_true_iff]
  constructor
  · rintro (h | h)
    · have h0 : (thr : ℝ) < 0 := by exact_mod_cast h
      exact lt_of_lt_of_le h0 (Real.sqrt_nonneg _)
    · rcases le_or_lt 0 (thr : ℝ) with hthr | hthr
      · refine (Real.lt_sqrt hthr).mpr ?_
        exact_mod_cast h
      · exact lt_of_lt_of_le hthr (Real.sqrt_nonneg _)
  · intro h
    by_cases hthr : thr < 0
    · exact Or.inl hthr
    · refine Or.inr ?_
      have hthr2 : (0 : ℝ) ≤ (thr : ℝ) := by
        exact_mod_cast not_lt.mp hthr
      have := (Real.lt_sqrt hthr2).mp h
      exact_mod_cast this

/-- The mean square of any sample list is non-negative, so the
square-root characterization above applies to every VAD call. -/
theorem meanSq_nonneg (xs : List ℚ) : 0 ≤ meanSq xs := by
  unfold meanSq
  apply div_nonneg
  · apply List.sum_nonneg
    intro x hx
    rcases List.mem_map.mp hx with ⟨y, _, rfl⟩
    positivity
  · positivity

/-- Case split on `process_chunk`: either a boundary is reported and the
pending segment is untouched, or no boundary is reported, the chunk is
appended whole and the result stays strictly below the ceiling. -/
theorem process_chunk_seg_or (st : AudioProcessor) (a : List ℚ) :
    ((process_chunk st a).2 = true ∧
     (process_chunk st a).1.current_segment = st.current_segment) ∨
    ((process_chunk st a).2 = false ∧
     (process_chunk st a).1.current_segment = st.current_segment ++ a ∧
     st.current_segment.length + a.length < st.max_segment_samples) := by
  unfold process_chunk
  split_ifs with h1 h2 h3
  · exact Or.inl ⟨rfl, rfl⟩
  · exact Or.inr ⟨rfl, rfl, by omega⟩
  · exact Or.inl ⟨rfl, rfl⟩
  · exact Or.inr ⟨rfl, rfl, by omega⟩

/-- On a reported segment boundary the chunk is not appended: the
pending segment is returned unchanged. -/
theorem process_chunk_true_seg (st : AudioProcessor) (a : List ℚ)
    (h : (process_chunk st a).2 = true) :
    (process_chunk st a).1.current_segment = st.current_segment := by
  rcases process_chunk_seg_or st a with ⟨_, hseg⟩ | ⟨hf, _⟩
  · exact hseg
  · rw [h] at hf; cases hf

/-- When no boundary is reported the chunk is appended whole. -/
theorem process_chunk_false_seg (st : AudioProcessor) (a : List ℚ)
    (h : (process_chunk st a).2 = false) :
    (process_chunk st a).1.current_segment = st.current_segment ++ a := by
  rcases process_chunk_seg_or st a with ⟨ht, _⟩ | ⟨_, hseg, _⟩
  · rw [h] at ht; cases ht
  · exact hseg

/-- A chunk is only appended when the result stays strictly below the
configured ceiling. -/
theorem process_chunk_false_lt (st : AudioProcessor) (a : List ℚ)
    (h : (process_chunk st a).2 = false) :
    st.current_segment.length + a.length < st.max_segment_samples := by
  rcases process_chunk_seg_or st a with ⟨ht, _⟩ | ⟨_, _, hlt⟩
  · rw [h] at ht; cases ht
  · exact hlt

/-- `process_chunk` never changes the configured ceiling. -/
theorem process_chunk_max (st : AudioProcessor) (a : List ℚ) :
    (process_chunk st a).1.max_segment_samples = st.max_segment_samples := by
  unfold process_chunk
  split_ifs <;> rfl

/-- The pending-segment length never exceeds the ceiling. -/
theorem process_chunk_len_le (st : AudioProcessor) (a : List ℚ)
    (h : st.current_segment.length ≤ st.max_segment_samples) :
    (process_chunk st a).1.current_segment.length ≤ st.max_segment_samples := by
  cases hf : (process_chunk st a).2 with
  | false =>
    have hlt := process_chunk_false_lt st a hf
    rw [process_chunk_false_seg st a hf]
    simp only [List.length_append]
    omega
  | true => rw [process_chunk_true_seg st a hf]; exact h

/-- `get_segment` on an empty pending segment: no output, no change. -/
theorem get_segment_eq_none (st : AudioProcessor)
    (h : st.current_segment = []) : get_segment st = (st, none) := by
  unfold get_segment
  rw [if_pos]
  simpa [List.isEmpty_iff] using h

/-- `get_segment` on a non-empty pending segment drains it. -/
theorem get_segment_eq_some (st : AudioProcessor)
    (h : st.current_segment ≠ []) :
    get_segment st =
      ({ st with current_segment := [], silence_counter := 0 },
       some st.current_segment) := by
  unfold get_segment
  rw [if_neg]
  simpa [List.isEmpty_iff] using h

/-- Invariant of the drained run: the ceiling is preserved, the pending
segment stays within it, and every emitted segment is non-empty and
within it. -/
theorem runProcess_inv (chunks : List (List ℚ)) :
    ∀ st : AudioProcessor, st.current_segment.length ≤ st.max_segment_samples →
      ((runProcess st chunks).1.max_segment_samples = st.max_segment_samples ∧
       (runProcess st chunks).1.current_segment.length ≤ st.max_segment_samples) ∧
      ∀ seg ∈ (runProcess st chunks).2,
        seg ≠ [] ∧ seg.length ≤ st.max_segment_samples := by
  induction chunks with
  | nil => intro st h; simp [runProcess, h]
  | cons c rest ih =>
    intro st h
    rcases hpc : process_chunk st c with ⟨st1, flag⟩
    have hmax : st1.max_segment_samples = st.max_segment_samples := by
      have := process_chunk_max st c; rw [hpc] at this; exact this
    have hlen : st1.current_segment.length ≤ st.max_segment_samples := by
      have := process_chunk_len_le st c h; rw [hpc] at this; exact this
    cases flag with
    | false =>
      have h1 : runStep st c = (st1, none) := by simp [runStep, hpc]
      have := ih st1 (by rw [hmax]; exact hlen)
      simp only [runProcess, h1]
      rw [hmax] at this
      simpa using this
    | true =>
      by_cases he : st1.current_segment = []
      · have h1 : runStep st c = (st1, none) := by
          simp [runStep, hpc, get_segment_eq_none st1 he]
        have := ih st1 (by rw [hmax]; exact hlen)
        simp only [runProcess, h1]
        rw [hmax] at this
        simpa using this
      · have h1 : runStep st c =
            ({ st1 with current_segment := [], silence_counter := 0 },
             some st1.current_segment) := by
          simp [runStep, hpc, get_segment_eq_some st1 he]
        have hinv := ih { st1 with current_segment := [], silence_counter := 0 }
          (by simp)
        simp only [runProcess, h1]
        simp only [Option.toList_some, List.mem_cons, List.singleton_append]
        constructor
        · exact ⟨hinv.1.1.trans hmax, le_of_le_of_eq hinv.1.2 hmax⟩
        · intro seg hseg
          rcases hseg with hseg | hseg
          · rw [hseg]
            exact ⟨he, hlen⟩
          · have := hinv.2 seg hseg
            exact ⟨this.1, le_of_le_of_eq this.2 hmax⟩

end AudioProc

/-- C1: if appending the incoming chunk would make the pending buffer
exceed the maximum segment size, `process_chunk` reports a segment
boundary before appending the chunk; consequently every segment
returned by `get_segment` — in particular every segment drained during
a run — is non-empty and holds at most `max_segment_samples` samples,
independent of VAD results. -/
theorem C1_forced_cut_segment_bound :
    (∀ (st : AudioProc.AudioProcessor) (audio : List ℚ),
        st.max_segment_samples < st.current_segment.length + audio.length →
        (AudioProc.process_chunk st audio).2 = true ∧
        (AudioProc.process_chunk st audio).1.current_segment =
          st.current_segment) ∧
    (∀ (st : AudioProc.AudioProcessor) (seg : List ℚ),
        st.current_segment.length ≤ st.max_segment_samples →
        (AudioProc.get_segment st).2 = some seg →
        seg ≠ [] ∧ seg.length ≤ st.max_segment_samples) ∧
    (∀ (st : AudioProc.AudioProcessor) (chunks : List (List ℚ)),
        st.current_segment.length ≤ st.max_segment_samples →
        ∀ seg ∈ (AudioProc.runProcess st chunks).2,
          seg ≠ [] ∧ seg.length ≤ st.max_segment_samples) := by
  refine ⟨?_, ?_, ?_⟩
  · intro st audio h
    have hflag : (AudioProc.process_chunk st audio).2 = true := by
      unfold AudioProc.process_chunk
      split_ifs with h1 h2 h3 <;> first | rfl | omega
    exact ⟨hflag, AudioProc.process_chunk_true_seg st audio hflag⟩
  · intro st seg hlen hsome
    by_cases he : st.current_segment = []
    · rw [AudioProc.get_segment_eq_none st he] at hsome
      simp at hsome
    · rw [AudioProc.get_segment_eq_some st he] at hsome
      simp only at hsome
      rw [Option.some_inj] at hsome
      subst hsome
      exact ⟨he, hlen⟩
  · intro st chunks h
    exact (AudioProc.runProcess_inv chunks st h).2

/-- Concrete segmenter state for the C1 witness: ceiling 3, one pending
sample. -/
def c1Proc : AudioProc.AudioProcessor :=
  { vad_threshold := 1, silence_chunks := 2, max_segment_samples := 3,
    current_segment := [1], silence_counter := 0 }

/-- Witness for C1 at a concrete state: appending a 3-sample chunk to a
1-sample pending buffer with ceiling 3 forces a cut without appending,
a drained pending buffer is non-empty and within the ceiling, and a
concrete silent run emits only such segments. -/
theorem C1_forced_cut_segment_bound_witness :
    ((AudioProc.process_chunk c1Proc [0, 0, 0]).2 = true ∧
     (AudioProc.process_chunk c1Proc [0, 0, 0]).1.current_segment =
       c1Proc.current_segment) ∧
    (([1] : List ℚ) ≠ [] ∧
      (([1] : List ℚ).length ≤ c1Proc.max_segment_samples)) ∧
    (∀ seg ∈ (AudioProc.runProcess c1Proc [[0], [0]]).2,
      seg ≠ [] ∧ seg.length ≤ c1Proc.max_segment_samples) := by
  refine ⟨C1_forced_cut_segment_bound.1 c1Proc [0, 0, 0]
    (by with_unfolding_all decide), ?_, ?_⟩
  · exact C1_forced_cut_segment_bound.2.1 c1Proc [1]
      (by with_unfolding_all decide) (by with_unfolding_all decide)
  · exact C1_forced_cut_segment_bound.2.2 c1Proc [[0], [0]]
      (by with_unfolding_all decide)

namespace AudioProc

/-- Shape of `process_chunk` on a silent chunk that does not hit the
forced-cut ceiling: the silence counter is bumped, and a boundary is
reported exactly when the bumped counter reaches `silence_chunks` with a
non-empty pending segment. -/
theorem process_chunk_silent (st : AudioProcessor) (c : List ℚ)
    (hs : detect_voice_activity st.vad_threshold c = false)
    (hlt : st.current_segment.length + c.length < st.max_segment_samples) :
    process_chunk st c =
      if st.silence_chunks ≤ st.silence_counter + 1 ∧
         st.current_segment.length ≠ 0 then
        ({ st with silence_counter := st.silence_counter + 1 }, true)
      else
        ({ st with silence_counter := st.silence_counter + 1
                   current_segment := st.current_segment ++ c }, false) := by
  unfold process_chunk
  rw [if_neg (by omega), if_neg (by simp [hs])]

/-- Unfolding equation for `processFlags` on a non-empty chunk list. -/
theorem processFlags_cons (st : AudioProcessor) (c : List ℚ)
    (rest : List (List ℚ)) :
    processFlags st (c :: rest) =
      (process_chunk st c).2 :: processFlags (process_chunk st c).1 rest := by
  rcases h : process_chunk st c with ⟨st1, flag⟩
  simp [processFlags, h]

/-- Generalized silence-cut run: starting from a non-empty pending
segment, feeding exactly enough silent chunks to bring the silence
counter up to `silence_chunks` (never hitting the forced-cut ceiling)
reports a boundary on the last chunk and on none of the earlier ones. -/
theorem silence_flags_aux (chunks : List (List ℚ)) :
    ∀ st : AudioProcessor,
      chunks ≠ [] →
      st.silence_counter + chunks.length = st.silence_chunks →
      st.current_segment ≠ [] →
      (∀ c ∈ chunks, detect_voice_activity st.vad_threshold c = false) →
      st.current_segment.length + (chunks.map List.length).sum <
        st.max_segment_samples →
      processFlags st chunks =
        List.replicate (chunks.length - 1) false ++ [true] := by
  induction chunks with
  | nil => intro st h; cases h rfl
  | cons c rest ih =>
    intro st _ hcount hne hsil hbound
    have hsc : detect_voice_activity st.vad_threshold c = false :=
      hsil c (List.mem_cons_self c rest)
    have hlt : st.current_segment.length + c.length < st.max_segment_samples := by
      simp only [List.map_cons, List.sum_cons] at hbound
      omega
    cases rest with
    | nil =>
      have hcut : st.silence_chunks ≤ st.silence_counter + 1 ∧
          st.current_segment.length ≠ 0 := by
        simp only [List.length_cons, List.length_nil] at hcount
        refine ⟨by omega, ?_⟩
        simpa [List.length_eq_zero] using hne
      have hstep : process_chunk st c =
          ({ st with silence_counter := st.silence_counter + 1 }, true) := by
        rw [process_chunk_silent st c hsc hlt, if_pos hcut]
      rw [processFlags_cons, hstep]
      simp [processFlags]
    | cons c2 rest2 =>
      have hnocut : ¬(st.silence_chunks ≤ st.silence_counter + 1 ∧
          st.current_segment.length ≠ 0) := by
        intro hc
        simp only [List.length_cons] at hcount
        omega
      have hstep : process_chunk st c =
          ({ st with silence_counter := st.silence_counter + 1
                     current_segment := st.current_segment ++ c }, false) := by
        rw [process_chunk_silent st c hsc hlt, if_neg hnocut]
      have hrec := ih { st with silence_counter := st.silence_counter + 1
                                current_segment := st.current_segment ++ c }
        (by simp)
        (by simp only [List.length_cons] at hcount ⊢; omega)
        (by simp [hne])
        (by intro x hx; exact hsil x (List.mem_cons_of_mem c hx))
        (by simp only [List.map_cons, List.sum_cons, List.length_append] at hbound ⊢
            omega)
      rw [processFlags_cons, hstep]
      dsimp only
      rw [hrec]
      simp [List.replicate_succ]

end AudioProc

/-- C5: starting from a non-empty pending buffer with a fresh silence
counter, and with the forced-cut ceiling out of reach, feeding
`silence_chunks` consecutive chunks that VAD classifies as silent makes
`process_chunk` report a boundary exactly on the last of them and on
none of the earlier ones. -/
theorem C5_silence_cut (st : AudioProc.AudioProcessor)
    (chunks : List (List ℚ))
    (hctr : st.silence_counter = 0)
    (hne : st.current_segment ≠ [])
    (hpos : 0 < st.silence_chunks)
    (hlen : chunks.length = st.silence_chunks)
    (hsil : ∀ c ∈ chunks,
      AudioProc.detect_voice_activity st.vad_threshold c = false)
    (hbound : st.current_segment.length + (chunks.map List.length).sum <
      st.max_segment_samples) :
    AudioProc.processFlags st chunks =
      List.replicate (st.silence_chunks - 1) false ++ [true] := by
  have hnil : chunks ≠ [] := by
    intro h
    rw [h] at hlen
    simp at hlen
    omega
  have := AudioProc.silence_flags_aux chunks st hnil (by omega) hne hsil hbound
  rw [this, hlen]

/-- Concrete segmenter state for the C5 witness: two silent chunks
needed for a cut, non-empty pending buffer, counter at zero. -/
def c5Proc : AudioProc.AudioProcessor :=
  { vad_threshold := 1, silence_chunks := 2, max_segment_samples := 100,
    current_segment := [1], silence_counter := 0 }

/-- Witness for C5: two all-zero (hence silent) chunks after a one-sample
pending buffer produce the flag sequence `[false, true]`. -/
theorem C5_silence_cut_witness :
    (c5Proc.silence_counter = 0 ∧ c5Proc.current_segment ≠ [] ∧
     0 < c5Proc.silence_chunks ∧
     ([[0, 0], [0, 0]] : List (List ℚ)).length = c5Proc.silence_chunks) ∧
    AudioProc.processFlags c5Proc [[0, 0], [0, 0]] =
      List.replicate (c5Proc.silence_chunks - 1) false ++ [true] :=
  ⟨by with_unfolding_all decide,
   C5_silence_cut c5Proc [[0, 0], [0, 0]]
    (by with_unfolding_all decide)
    (by with_unfolding_all decide)
    (by with_unfolding_all decide)
    (by with_unfolding_all decide)
    (by with_unfolding_all decide)
    (by with_unfolding_all decide)⟩

/-- Concrete segmenter state refuting C9: one chunk of silence away from
the silence-cut threshold, non-empty pending buffer. -/
def c9Proc : AudioProc.AudioProcessor :=
  { vad_threshold := 1 / 50, silence_chunks := 1, max_segment_samples := 10,
    current_segment := [1 / 2], silence_counter := 0 }

/-- Counterexample to C9: on this state an empty chunk increments the
silence counter (from 0 to 1) and even produces a segment boundary, so
an empty chunk does not leave the segmenter state unchanged. -/
theorem C9_empty_chunk_counterexample :
    (AudioProc.process_chunk c9Proc []).1.silence_counter ≠
      c9Proc.silence_counter ∧
    (AudioProc.process_chunk c9Proc []).2 = true := by
  with_unfolding_all decide

/-- C9 (amended): an empty chunk reports no voice activity and leaves
the pending segment unchanged, but it increments the silence counter,
and it produces a segment boundary exactly when the incremented counter
reaches `silence_chunks` while the pending segment is non-empty
(assuming the pending segment is below the ceiling, which holds in every
reachable state). -/
theorem C9_empty_chunk_amended (st : AudioProc.AudioProcessor)
    (h : st.current_segment.length < st.max_segment_samples) :
    AudioProc.detect_voice_activity st.vad_threshold [] = false ∧
    (AudioProc.process_chunk st []).1.current_segment = st.current_segment ∧
    (AudioProc.process_chunk st []).1.silence_counter =
      st.silence_counter + 1 ∧
    ((AudioProc.process_chunk st []).2 = true ↔
      (st.silence_chunks ≤ st.silence_counter + 1 ∧
       st.current_segment ≠ [])) := by
  have hs : AudioProc.detect_voice_activity st.vad_threshold [] = false := rfl
  have hstep := AudioProc.process_chunk_silent st [] hs (by simpa using h)
  by_cases hc : st.silence_chunks ≤ st.silence_counter + 1 ∧
      st.current_segment.length ≠ 0
  · rw [hstep, if_pos hc]
    refine ⟨hs, by simp, rfl, ?_⟩
    constructor
    · intro _
      exact ⟨hc.1, fun he => hc.2 (by simp [he])⟩
    · intro _; rfl
  · rw [hstep, if_neg hc]
    refine ⟨hs, by simp, rfl, ?_⟩
    constructor
    · intro hfalse; exact absurd hfalse (by simp)
    · intro hcond
      exact absurd ⟨hcond.1, by simpa [List.length_eq_zero] using hcond.2⟩ hc

/-- Witness for the amended C9 at a concrete state: the hypothesis holds
and the conclusions evaluate as stated. -/
theorem C9_empty_chunk_amended_witness :
    c9Proc.current_segment.length < c9Proc.max_segment_samples ∧
    (AudioProc.detect_voice_activity c9Proc.vad_threshold [] = false ∧
     (AudioProc.process_chunk c9Proc []).1.current_segment =
       c9Proc.current_segment ∧
     (AudioProc.process_chunk c9Proc []).1.silence_counter =
       c9Proc.silence_counter + 1 ∧
     ((AudioProc.process_chunk c9Proc []).2 = true ↔
       (c9Proc.silence_chunks ≤ c9Proc.silence_counter + 1 ∧
        c9Proc.current_segment ≠ []))) :=
  ⟨by with_unfolding_all decide,
   C9_empty_chunk_amended c9Proc (by with_unfolding_all decide)⟩

namespace AudioProc

/-- Unfolding of `keptSamples` on a kept (appended) chunk. -/
theorem keptSamples_cons_false (st : AudioProcessor) (c : List ℚ)
    (rest : List (List ℚ)) (st1 : AudioProcessor)
    (h : process_chunk st c = (st1, false)) :
    keptSamples st (c :: rest) = c ++ keptSamples st1 rest := by
  simp [keptSamples, h]

/-- Unfolding of `keptSamples` on a boundary chunk. -/
theorem keptSamples_cons_true (st : AudioProcessor) (c : List ℚ)
    (rest : List (List ℚ)) (st1 : AudioProcessor)
    (h : process_chunk st c = (st1, true)) :
    keptSamples st (c :: rest) = keptSamples (get_segment st1).1 rest := by
  simp [keptSamples, h]

/-- Unfolding of `runProcess` on a non-empty chunk list. -/
theorem runProcess_cons_eq (st : AudioProcessor) (c : List ℚ)
    (rest : List (List ℚ)) (st1 : AudioProcessor) (sq : Option (List ℚ))
    (h : runStep st c = (st1, sq)) :
    runProcess st (c :: rest) =
      ((runProcess st1 rest).1, sq.toList ++ (runProcess st1 rest).2) := by
  rcases h2 : runProcess st1 rest with ⟨st2, segs⟩
  simp [runProcess, h, h2]

/-- Conservation along a drained run: the emitted segments followed by
the final pending buffer are exactly the initial pending buffer followed
by the samples of the chunks on which no boundary fired.  Samples of
boundary-triggering chunks appear nowhere. -/
theorem runProcess_kept (chunks : List (List ℚ)) :
    ∀ st : AudioProcessor,
      (runProcess st chunks).2.flatten ++
        (runProcess st chunks).1.current_segment =
      st.current_segment ++ keptSamples st chunks := by
  induction chunks with
  | nil => intro st; simp [runProcess, keptSamples]
  | cons c rest ih =>
    intro st
    rcases hpc : process_chunk st c with ⟨st1, flag⟩
    cases flag with
    | false =>
      have h1 : runStep st c = (st1, none) := by simp [runStep, hpc]
      have hflag : (process_chunk st c).2 = false := by rw [hpc]
      have hseg : st1.current_segment = st.current_segment ++ c := by
        have h2 := process_chunk_false_seg st c hflag
        rw [hpc] at h2
        exact h2
      rw [runProcess_cons_eq st c rest st1 none h1,
          keptSamples_cons_false st c rest st1 hpc]
      simp only [Option.toList_none, List.nil_append]
      rw [ih st1, hseg, List.append_assoc]
    | true =>
      have hflag : (process_chunk st c).2 = true := by rw [hpc]
      have hseg : st1.current_segment = st.current_segment := by
        have h2 := process_chunk_true_seg st c hflag
        rw [hpc] at h2
        exact h2
      by_cases he : st1.current_segment = []
      · have h1 : runStep st c = (st1, none) := by
          simp [runStep, hpc, get_segment_eq_none st1 he]
        have hkept : keptSamples st (c :: rest) = keptSamples st1 rest := by
          rw [keptSamples_cons_true st c rest st1 hpc,
              get_segment_eq_none st1 he]
        rw [runProcess_cons_eq st c rest st1 none h1, hkept]
        simp only [Option.toList_none, List.nil_append]
        rw [ih st1, hseg]
      · have hgs := get_segment_eq_some st1 he
        have h1 : runStep st c =
            ({ st1 with current_segment := [], silence_counter := 0 },
             some st1.current_segment) := by
          simp [runStep, hpc, hgs]
        have hkept : keptSamples st (c :: rest) =
            keptSamples
              { st1 with current_segment := [], silence_counter := 0 }
              rest := by
          rw [keptSamples_cons_true st c rest st1 hpc, hgs]
        rw [runProcess_cons_eq st c rest
            { st1 with current_segment := [], silence_counter := 0 }
            (some st1.current_segment) h1,
            hkept]
        have hih := ih { st1 with current_segment := [], silence_counter := 0 }
        simp only [List.nil_append] at hih
        simp only [Option.toList_some, List.singleton_append,
          List.flatten_cons, List.append_assoc, hseg]
        rw [hih]

end AudioProc

/-- C10: whenever `process_chunk` reports a segment boundary, the chunk
that triggered it is not appended to the pending segment, and the
drained run never re-feeds it: the emitted segments plus the final
pending buffer consist exactly of the initial pending buffer and the
chunks on which no boundary fired, so the samples of boundary chunks
appear in no emitted segment. -/
theorem C10_boundary_chunk_discarded :
    (∀ (st : AudioProc.AudioProcessor) (audio : List ℚ),
        (AudioProc.process_chunk st audio).2 = true →
        (AudioProc.process_chunk st audio).1.current_segment =
          st.current_segment) ∧
    (∀ (st : AudioProc.AudioProcessor) (chunks : List (List ℚ)),
        (AudioProc.runProcess st chunks).2.flatten ++
          (AudioProc.runProcess st chunks).1.current_segment =
        st.current_segment ++ AudioProc.keptSamples st chunks) :=
  ⟨AudioProc.process_chunk_true_seg,
   fun st chunks => AudioProc.runProcess_kept chunks st⟩

/-- Witness for C10: a concrete boundary-triggering call (ceiling 3,
pending 1 sample, 3-sample chunk) leaves the pending segment untouched. -/
theorem C10_boundary_chunk_discarded_witness :
    (AudioProc.process_chunk
        { vad_threshold := 1, silence_chunks := 2, max_segment_samples := 3,
          current_segment := [1], silence_counter := 0 } [0, 0, 0]).2 = true ∧
    (AudioProc.process_chunk
        { vad_threshold := 1, silence_chunks := 2, max_segment_samples := 3,
          current_segment := [1], silence_counter := 0 }
        [0, 0, 0]).1.current_segment = [1] :=
  ⟨by with_unfolding_all decide,
   C10_boundary_chunk_discarded.1
    { vad_threshold := 1, silence_chunks := 2, max_segment_samples := 3,
      current_segment := [1], silence_counter := 0 } [0, 0, 0]
    (by with_unfolding_all decide)⟩

/-- Decode-failure behaviour of `_handle_audio_data`: when recording and
the chunk fails to decode, the state is returned unchanged and exactly
one `Audio processing failed` error message is emitted. -/
theorem handle_audio_data_decode_error (oracle : Transcription.Oracle)
    (st : WsHandler.HandlerConn) (data : List ℕ) (e : String)
    (hrec : st.is_recording = true)
    (hdec : AudioProc.decode_int16 data = Except.error e) :
    WsHandler.handle_audio_data oracle st data =
      (st, [WsHandler.audioFailMsg e]) := by
  unfold WsHandler.handle_audio_data
  rw [hrec]
  simp [hdec]

/-- Concrete handler state for the C4 counterexample and witness: a
recording client with default segmenter configuration. -/
def c4Conn : WsHandler.HandlerConn :=
  { WsHandler.initHandlerConn with is_recording := true }

/-- Backend oracle used in concrete C4 runs (its value is irrelevant: a
decode failure never reaches the backend). -/
def c4Oracle : Transcription.Oracle :=
  fun _ _ => Transcription.RivaOutcome.noEvents

/-- Counterexample to C4: on a recording connection, a one-byte audio
frame (an odd byte count for 16-bit samples) makes the handler send an
`Audio processing failed` error message to the client, contradicting
the claim that no error message is sent. -/
theorem C4_decode_error_counterexample :
    ((WsHandler.handle_audio_data c4Oracle c4Conn [7]).2.map
      (fun m => m.mtype)) = ["error"] ∧
    (WsHandler.handle_audio_data c4Oracle c4Conn [7]).1 = c4Conn := by
  rw [handle_audio_data_decode_error c4Oracle c4Conn [7]
    "buffer size must be a multiple of element size" rfl rfl]
  exact ⟨rfl, rfl⟩

/-- C4 (amended): an odd byte count for 16-bit samples always signals a
decode error, and on any decode error the handler drops the chunk and
continues — the per-connection state, segmenter included, is unchanged —
but it does send one `Audio processing failed` error message to the
client. -/
theorem C4_decode_error_amended :
    (∀ data : List ℕ, data.length % 2 ≠ 0 →
        AudioProc.decode_int16 data =
          Except.error "buffer size must be a multiple of element size") ∧
    (∀ (oracle : Transcription.Oracle) (st : WsHandler.HandlerConn)
        (data : List ℕ) (e : String),
        st.is_recording = true →
        AudioProc.decode_int16 data = Except.error e →
        WsHandler.handle_audio_data oracle st data =
          (st, [WsHandler.audioFailMsg e])) := by
  constructor
  · intro data h
    unfold AudioProc.decode_int16
    rw [if_neg h]
  · exact handle_audio_data_decode_error

/-- Witness for the amended C4 at the concrete one-byte frame. -/
theorem C4_decode_error_amended_witness :
    (([7] : List ℕ).length % 2 ≠ 0 ∧
     AudioProc.decode_int16 [7] =
       Except.error "buffer size must be a multiple of element size") ∧
    (c4Conn.is_recording = true ∧
     WsHandler.handle_audio_data c4Oracle c4Conn [7] =
       (c4Conn,
        [WsHandler.audioFailMsg
          "buffer size must be a multiple of element size"])) := by
  refine ⟨⟨by decide,
    C4_decode_error_amended.1 [7] (by decide)⟩,
    ⟨rfl, ?_⟩⟩
  exact C4_decode_error_amended.2 c4Oracle c4Conn [7]
    "buffer size must be a multiple of element size"
    rfl
    (C4_decode_error_amended.1 [7] (by decide))

/-- Counterexample to C6: the two-byte frame `0x7b 0x61` (the text
`\x7ba`) starts with the opening-brace byte and decodes as UTF-8, but
fails JSON parsing; `_handle_control_message` then answers with an
`Invalid JSON` error instead of re-routing the frame to the audio
handler, so structured-decoding failure does not always re-route to
audio. -/
theorem C6_brace_frame_counterexample :
    Dispatch.handle_message_bytes Dispatch.BytesDecodeOutcome.jsonFail
        [123, 97] ≠ Dispatch.Route.audioHandled ∧
    Dispatch.handle_message_bytes Dispatch.BytesDecodeOutcome.jsonFail
        [123, 97] = Dispatch.Route.invalidJsonErrorSent := by
  with_unfolding_all decide

/-- C6 (amended): a binary frame whose first byte is the opening brace
is treated as a control message; it is re-routed to audio handling
exactly when UTF-8 decoding fails, while a frame that decodes as UTF-8
but fails JSON parsing is answered with an `Invalid JSON` error (not
silently dropped, but not handled as audio either), and a successfully
parsed frame is handled as control. -/
theorem C6_brace_frame_amended (data : List ℕ)
    (outcome : Dispatch.BytesDecodeOutcome)
    (h : data.head? = some 123) :
    Dispatch.handle_message_bytes outcome data =
      match outcome with
      | Dispatch.BytesDecodeOutcome.utf8Fail => Dispatch.Route.audioHandled
      | Dispatch.BytesDecodeOutcome.jsonFail =>
        Dispatch.Route.invalidJsonErrorSent
      | Dispatch.BytesDecodeOutcome.jsonOk t =>
        Dispatch.Route.controlHandled t := by
  unfold Dispatch.handle_message_bytes
  rw [if_pos h]

/-- Witness for the amended C6: on the concrete frame `0x7b 0x61` the
three decode outcomes route as stated. -/
theorem C6_brace_frame_amended_witness :
    (([123, 97] : List ℕ).head? = some 123) ∧
    Dispatch.handle_message_bytes Dispatch.BytesDecodeOutcome.utf8Fail
      [123, 97] = Dispatch.Route.audioHandled ∧
    Dispatch.handle_message_bytes Dispatch.BytesDecodeOutcome.jsonFail
      [123, 97] = Dispatch.Route.invalidJsonErrorSent := by
  refine ⟨by with_unfolding_all decide, ?_, ?_⟩
  · exact C6_brace_frame_amended [123, 97]
      Dispatch.BytesDecodeOutcome.utf8Fail (by with_unfolding_all decide)
  · exact C6_brace_frame_amended [123, 97]
      Dispatch.BytesDecodeOutcome.jsonFail (by with_unfolding_all decide)

namespace Bridge

/-- `remove_connection` on an unregistered id does nothing. -/
theorem remove_connection_none (mgr : ConnectionManager) (cid : String)
    (h : mgr.connections cid = none) :
    remove_connection mgr cid = (mgr, []) := by
  unfold remove_connection
  rw [h]

/-- `remove_connection` on a registered id closes the Riva client,
deletes the entry and decrements the count — and emits no other
effect. -/
theorem remove_connection_some (mgr : ConnectionManager) (cid : String)
    (cd : ConnData) (h : mgr.connections cid = some cd) :
    remove_connection mgr cid =
      ({ connections := fun k => if k = cid then none else mgr.connections k
         connection_count := mgr.connection_count - 1 },
       [BridgeEvent.closeRiva cid]) := by
  unfold remove_connection
  rw [h]

/-- After a removal the id is no longer registered. -/
theorem remove_connection_lookup (mgr : ConnectionManager) (cid : String) :
    (remove_connection mgr cid).1.connections cid = none := by
  rcases h : mgr.connections cid with _ | cd
  · rw [remove_connection_none mgr cid h]
    exact h
  · rw [remove_connection_some mgr cid cd h]
    simp

/-- Lookup after `setConn` at the written key. -/
theorem setConn_lookup (mgr : ConnectionManager) (cid : String) (cd : ConnData) :
    (setConn mgr cid cd).connections cid = some cd := by
  simp [setConn]

/-- Every control/audio frame leaves the handled connection registered
(possibly with updated fields): dispatch never deletes registry
entries. -/
theorem handle_client_msg_preserves (mgr : ConnectionManager) (cid : String)
    (m : ClientMsg) (h : ∃ cd, mgr.connections cid = some cd) :
    ∃ cd2, (handle_client_msg mgr cid m).1.connections cid = some cd2 := by
  rcases h with ⟨cd, h⟩
  cases m with
  | startMsg ok wi =>
    show ∃ cd2,
      (start_transcription_session mgr cid ok wi).1.connections cid = some cd2
    unfold start_transcription_session
    rw [h]
    dsimp only
    split_ifs <;> first
      | exact ⟨cd, h⟩
      | exact ⟨_, setConn_lookup mgr cid _⟩
  | stopMsg =>
    show ∃ cd2,
      (stop_transcription_session mgr cid).1.connections cid = some cd2
    unfold stop_transcription_session
    rw [h]
    dsimp only
    split_ifs <;> first
      | exact ⟨cd, h⟩
      | exact ⟨_, setConn_lookup mgr cid _⟩
  | audioMsg =>
    show ∃ cd2, (bridge_handle_audio mgr cid).1.connections cid = some cd2
    unfold bridge_handle_audio
    rw [h]
    dsimp only
    split_ifs <;> first
      | exact ⟨cd, h⟩
      | exact ⟨_, setConn_lookup mgr cid _⟩
  | pingMsg =>
    unfold handle_client_msg
    rw [h]
    exact ⟨cd, h⟩
  | unknownMsg t =>
    unfold handle_client_msg
    rw [h]
    exact ⟨cd, h⟩

/-- Unfolding equation for `connStep`. -/
theorem connStep_eq (cid : String) (mgr : ConnectionManager)
    (evs : List BridgeEvent) (m : ClientMsg) :
    connStep cid (mgr, evs) m =
      ((handle_client_msg mgr cid m).1,
       evs ++ (handle_client_msg mgr cid m).2) := by
  rcases hm : handle_client_msg mgr cid m with ⟨mgr2, e⟩
  simp [connStep, hm]

/-- The registry entry of a connection survives any sequence of inbound
frames. -/
theorem connRun_preserves (cid : String) (msgs : List ClientMsg) :
    ∀ (mgr : ConnectionManager) (evs : List BridgeEvent),
      (∃ cd, mgr.connections cid = some cd) →
      ∃ cd2, ((msgs.foldl (connStep cid) (mgr, evs)).1.connections cid =
        some cd2) := by
  induction msgs with
  | nil => intro mgr evs h; exact h
  | cons m rest ih =>
    intro mgr evs h
    rw [List.foldl_cons, connStep_eq]
    exact ih _ _ (handle_client_msg_preserves mgr cid m h)

/-- Unfolding equation for `handle_connection_run`. -/
theorem handle_connection_run_eq (mgr : ConnectionManager) (cid : String)
    (msgs : List ClientMsg) :
    handle_connection_run mgr cid msgs =
      ((remove_connection (msgs.foldl (connStep cid) (mgr, [])).1 cid).1,
       (msgs.foldl (connStep cid) (mgr, [])).2 ++
         (remove_connection (msgs.foldl (connStep cid) (mgr, [])).1 cid).2) := by
  rcases h1 : msgs.foldl (connStep cid) (mgr, []) with ⟨m1, evs⟩
  rcases h2 : remove_connection m1 cid with ⟨m2, evs2⟩
  simp [handle_connection_run, h1, h2]

end Bridge

/-- C3: `start_transcription` while a session is already active is
answered with an `AlreadyActive` error and changes nothing — registry,
count, worker, queue and counters of the original session included; and
`stop_transcription` while idle is answered with a `NotActive` error
and changes nothing. -/
theorem C3_state_machine_guards :
    (∀ (mgr : Bridge.ConnectionManager) (cid : String)
        (cd : Bridge.ConnData) (ok wi : Bool),
        mgr.connections cid = some cd → cd.session_active = true →
        Bridge.start_transcription_session mgr cid ok wi =
          (mgr, [Bridge.BridgeEvent.sendError cid
            "Transcription session already active"])) ∧
    (∀ (mgr : Bridge.ConnectionManager) (cid : String)
        (cd : Bridge.ConnData),
        mgr.connections cid = some cd → cd.session_active = false →
        Bridge.stop_transcription_session mgr cid =
          (mgr, [Bridge.BridgeEvent.sendError cid
            "No active transcription session"])) := by
  constructor
  · intro mgr cid cd ok wi h hact
    unfold Bridge.start_transcription_session
    rw [h]
    simp [hact]
  · intro mgr cid cd h hact
    unfold Bridge.stop_transcription_session
    rw [h]
    simp [hact]

/-- Registered connection with an active recording session, for the C3
witness. -/
def c3ActiveData : Bridge.ConnData :=
  { session_active := true, has_queue := true, has_task := true,
    enable_interim := true, total_audio_chunks := 3,
    total_transcriptions := 2 }

/-- Registered idle connection for the C3 witness. -/
def c3IdleData : Bridge.ConnData :=
  { session_active := false, has_queue := false, has_task := false,
    enable_interim := false, total_audio_chunks := 0,
    total_transcriptions := 0 }

/-- Registry with one recording connection `a` and one idle connection
`b`, for the C3 witness. -/
def c3Mgr : Bridge.ConnectionManager :=
  { connections := fun k =>
      if k = "a" then some c3ActiveData
      else if k = "b" then some c3IdleData
      else none
    connection_count := 2 }

/-- Witness for C3 on a concrete registry: starting on the recording
connection and stopping on the idle one both return the registry
unchanged together with the corresponding error. -/
theorem C3_state_machine_guards_witness :
    (c3Mgr.connections "a" = some c3ActiveData ∧
     c3ActiveData.session_active = true ∧
     Bridge.start_transcription_session c3Mgr "a" true false =
       (c3Mgr, [Bridge.BridgeEvent.sendError "a"
         "Transcription session already active"])) ∧
    (c3Mgr.connections "b" = some c3IdleData ∧
     c3IdleData.session_active = false ∧
     Bridge.stop_transcription_session c3Mgr "b" =
       (c3Mgr, [Bridge.BridgeEvent.sendError "b"
         "No active transcription session"])) :=
  ⟨⟨rfl, rfl, C3_state_machine_guards.1 c3Mgr "a" c3ActiveData true false rfl rfl⟩,
   ⟨rfl, rfl, C3_state_machine_guards.2 c3Mgr "b" c3IdleData rfl rfl⟩⟩

/-- C7: a second `remove_connection` on the same id is a no-op: it
returns the state of the first call unchanged and emits no effect — in
particular it does not close the backend handle again — and, being a
total function, it cannot raise. -/
theorem C7_remove_idempotent (mgr : Bridge.ConnectionManager) (cid : String) :
    Bridge.remove_connection (Bridge.remove_connection mgr cid).1 cid =
      ((Bridge.remove_connection mgr cid).1, []) :=
  Bridge.remove_connection_none (Bridge.remove_connection mgr cid).1 cid
    (Bridge.remove_connection_lookup mgr cid)

/-- Registered connection in the middle of a recording session, for the
C2 counterexample and witness. -/
def c2Data : Bridge.ConnData :=
  { session_active := true, has_queue := true, has_task := true,
    enable_interim := true, total_audio_chunks := 5,
    total_transcriptions := 1 }

/-- Registry holding that one recording connection. -/
def c2Mgr : Bridge.ConnectionManager :=
  { connections := fun k => if k = "c" then some c2Data else none
    connection_count := 1 }

/-- Counterexample to C2: removing a connection whose session is
recording emits only the backend-close effect; it does not cancel the
transcription worker task, although `stop_transcription` on the same
state would — so `remove_connection` does not perform the graceful stop
sequence. -/
theorem C2_remove_connection_counterexample :
    (Bridge.remove_connection c2Mgr "c").2 =
      [Bridge.BridgeEvent.closeRiva "c"] ∧
    Bridge.BridgeEvent.cancelTask "c" ∉
      (Bridge.remove_connection c2Mgr "c").2 ∧
    Bridge.BridgeEvent.cancelTask "c" ∈
      (Bridge.stop_transcription_session c2Mgr "c").2 := by
  have hrm := Bridge.remove_connection_some c2Mgr "c" c2Data rfl
  have hstop : (Bridge.stop_transcription_session c2Mgr "c").2 =
      [Bridge.BridgeEvent.cancelTask "c", Bridge.BridgeEvent.awaitTask "c",
       Bridge.BridgeEvent.sendMsg "c" "session_stopped"] := by
    unfold Bridge.stop_transcription_session
    rfl
  rw [hrm, hstop]
  refine ⟨rfl, by simp, by simp⟩

/-- C2 (amended): `remove_connection` on a registered id always closes
that connection's backend client, removes the registry entry and
decrements the count — and transport disconnect reaches exactly this
path even when the client never sent `stop_transcription` — but it does
not perform the graceful stop sequence: no worker-task cancellation or
await is among its effects. -/
theorem C2_remove_connection_amended :
    (∀ (mgr : Bridge.ConnectionManager) (cid : String) (cd : Bridge.ConnData),
        mgr.connections cid = some cd →
        Bridge.remove_connection mgr cid =
          ({ connections := fun k => if k = cid then none
               else mgr.connections k
             connection_count := mgr.connection_count - 1 },
           [Bridge.BridgeEvent.closeRiva cid])) ∧
    (∀ (mgr : Bridge.ConnectionManager) (cid : String)
        (msgs : List Bridge.ClientMsg) (cd : Bridge.ConnData),
        mgr.connections cid = some cd →
        Bridge.BridgeEvent.closeRiva cid ∈
          (Bridge.handle_connection_run mgr cid msgs).2 ∧
        (Bridge.handle_connection_run mgr cid msgs).1.connections cid =
          none) := by
  constructor
  · exact Bridge.remove_connection_some
  · intro mgr cid msgs cd h
    rcases Bridge.connRun_preserves cid msgs mgr [] ⟨cd, h⟩ with ⟨cd2, h2⟩
    rw [Bridge.handle_connection_run_eq]
    constructor
    · rw [Bridge.remove_connection_some _ cid cd2 h2]
      simp
    · exact Bridge.remove_connection_lookup _ cid

/-- Witness for the amended C2: on the concrete registry, removal
closes the backend and deletes the entry, and a full connection run that
never sends `stop_transcription` still ends with the backend closed and
the entry gone. -/
theorem C2_remove_connection_amended_witness :
    (c2Mgr.connections "c" = some c2Data ∧
     Bridge.remove_connection c2Mgr "c" =
       ({ connections := fun k => if k = "c" then none
            else c2Mgr.connections k
          connection_count := c2Mgr.connection_count - 1 },
        [Bridge.BridgeEvent.closeRiva "c"])) ∧
    (Bridge.BridgeEvent.closeRiva "c" ∈
      (Bridge.handle_connection_run c2Mgr "c"
        [Bridge.ClientMsg.pingMsg, Bridge.ClientMsg.audioMsg]).2 ∧
     (Bridge.handle_connection_run c2Mgr "c"
        [Bridge.ClientMsg.pingMsg, Bridge.ClientMsg.audioMsg]).1.connections
       "c" = none) :=
  ⟨⟨rfl, C2_remove_connection_amended.1 c2Mgr "c" c2Data rfl⟩,
   C2_remove_connection_amended.2 c2Mgr "c"
     [Bridge.ClientMsg.pingMsg, Bridge.ClientMsg.audioMsg] c2Data rfl⟩

namespace Transcription

/-- Every result produced by `transcribe_segment` carries the
`segment_id` current at submission time, and the counter never
decreases (it is bumped only on a final result with non-empty text). -/
theorem transcribe_segment_msg_id (oracle : Oracle) (ts : TranscriptionStream)
    (seg : List ℚ) (sr : ℚ) (fin : Bool) :
    (transcribe_segment oracle ts seg sr fin).2.segment_id =
      some ts.segment_id ∧
    ts.segment_id ≤ (transcribe_segment oracle ts seg sr fin).1.segment_id := by
  unfold transcribe_segment
  rcases ho : oracle seg fin with ⟨t, txt⟩ | _ | m <;> dsimp only <;>
    first
      | exact ⟨rfl, by omega⟩
      | (split_ifs <;> exact ⟨rfl, by dsimp only; omega⟩)

end Transcription

namespace WsHandler

open Transcription

/-- The `segment_id` values carried by a message list, in order. -/
def segIds (msgs : List OutMsg) : List ℕ :=
  msgs.filterMap (fun m => m.segment_id)

/-- Ids of a single message. -/
theorem segIds_singleton (m : OutMsg) :
    segIds [m] = m.segment_id.toList := by
  rcases h : m.segment_id with _ | n <;> simp [segIds, h]

/-- Ids distribute over appending. -/
theorem segIds_append (a b : List OutMsg) :
    segIds (a ++ b) = segIds a ++ segIds b :=
  List.filterMap_append a b _

/-- A list whose elements are all equal is a `≤`-chain. -/
theorem chain_of_const (M : List ℕ) (n : ℕ) (h : ∀ x ∈ M, x = n) :
    List.Chain' (· ≤ ·) M := by
  induction M with
  | nil => simp
  | cons a t ih =>
    cases t with
    | nil => exact List.chain'_singleton a
    | cons b t2 =>
      rw [List.chain'_cons]
      refine ⟨?_, ih ?_⟩
      · rw [h a (by simp), h b (by simp)]
      · intro x hx
        exact h x (List.mem_cons_of_mem a hx)

/-- Appending messages that all carry the current id to a bounded chain
yields a bounded chain. -/
theorem chain_le_append (L M : List ℕ) (n : ℕ)
    (hL : List.Chain' (· ≤ ·) L) (hLb : ∀ x ∈ L, x ≤ n)
    (hM : ∀ x ∈ M, x = n) :
    List.Chain' (· ≤ ·) (L ++ M) ∧ ∀ x ∈ L ++ M, x ≤ n := by
  constructor
  · refine List.Chain'.append hL (chain_of_const M n hM) ?_
    intro x hx y hy
    have hx2 : x ∈ L := by
      rcases List.mem_getLast?_eq_getLast hx with ⟨hne, hxe⟩
      rw [hxe]
      exact List.getLast_mem hne
    rw [hM y (List.mem_of_mem_head? hy)]
    exact hLb x hx2
  · intro x hx
    rcases List.mem_append.mp hx with hx | hx
    · exact hLb x hx
    · exact le_of_eq (hM x hx)

/-- Every message emitted by one audio step carries the `segment_id`
current when the step began, and the step never decreases the
counter. -/
theorem handle_audio_data_ids (oracle : Oracle) (st : HandlerConn)
    (data : List ℕ) :
    (∀ x ∈ segIds (handle_audio_data oracle st data).2,
      x = st.transcription_stream.segment_id) ∧
    st.transcription_stream.segment_id ≤
      (handle_audio_data oracle st data).1.transcription_stream.segment_id := by
  unfold handle_audio_data
  split_ifs with hrec
  · simp [segIds]
  · cases hdec : AudioProc.decode_int16 data with
    | error e =>
      dsimp only
      simp [segIds, audioFailMsg]
    | ok samples =>
      dsimp only
      rcases hpc : AudioProc.process_chunk st.audio_processor samples
        with ⟨pst, isEnd⟩
      cases isEnd with
      | true =>
        rw [if_pos rfl]
        rcases hgs : AudioProc.get_segment pst with ⟨pst2, sq⟩
        cases sq with
        | none => simp [segIds]
        | some seg =>
          rcases htr : transcribe_segment oracle st.transcription_stream
            seg 16000 true with ⟨ts2, msg⟩
          have hmi := transcribe_segment_msg_id oracle
            st.transcription_stream seg 16000 true
          rw [htr] at hmi
          simp only [htr]
          try dsimp only
          dsimp only at hmi
          constructor
          · intro x hx
            rw [segIds_singleton, hmi.1] at hx
            simpa using hx
          · exact hmi.2
      | false =>
        rw [if_neg (by simp)]
        split_ifs with hlen
        · rcases htr : transcribe_segment oracle st.transcription_stream
            pst.current_segment 16000 false with ⟨ts2, msg⟩
          have hmi := transcribe_segment_msg_id oracle
            st.transcription_stream pst.current_segment 16000 false
          rw [htr] at hmi
          simp only [htr]
          try dsimp only
          dsimp only at hmi
          constructor
          · intro x hx
            rw [segIds_singleton] at hx
            have : ({ msg with mtype := "partial" } : OutMsg).segment_id =
                msg.segment_id := rfl
            rw [this, hmi.1] at hx
            simpa using hx
          · exact hmi.2
        · simp [segIds]

/-- Unfolding equation for `sessionStep`. -/
theorem sessionStep_eq (oracle : Oracle) (st : HandlerConn)
    (msgs : List OutMsg) (data : List ℕ) :
    sessionStep oracle (st, msgs) data =
      ((handle_audio_data oracle st data).1,
       msgs ++ (handle_audio_data oracle st data).2) := by
  rcases h : handle_audio_data oracle st data with ⟨st2, ms⟩
  simp [sessionStep, h]

/-- Invariant of the audio fold: the accumulated ids form a bounded
`≤`-chain with bound the current `segment_id`. -/
theorem session_fold_inv (oracle : Oracle) (chunks : List (List ℕ)) :
    ∀ (st : HandlerConn) (msgs : List OutMsg),
      List.Chain' (· ≤ ·) (segIds msgs) →
      (∀ x ∈ segIds msgs, x ≤ st.transcription_stream.segment_id) →
      List.Chain' (· ≤ ·)
        (segIds (chunks.foldl (sessionStep oracle) (st, msgs)).2) ∧
      (∀ x ∈ segIds (chunks.foldl (sessionStep oracle) (st, msgs)).2,
        x ≤ (chunks.foldl (sessionStep oracle)
          (st, msgs)).1.transcription_stream.segment_id) := by
  induction chunks with
  | nil => intro st msgs h1 h2; exact ⟨h1, h2⟩
  | cons data rest ih =>
    intro st msgs h1 h2
    rw [List.foldl_cons, sessionStep_eq]
    have hstep := handle_audio_data_ids oracle st data
    have happ := chain_le_append (segIds msgs)
      (segIds (handle_audio_data oracle st data).2)
      st.transcription_stream.segment_id h1 h2 hstep.1
    apply ih
    · rw [segIds_append]
      exact happ.1
    · rw [segIds_append]
      intro x hx
      exact le_trans (happ.2 x hx) hstep.2

/-- `stop_recording` always emits the flush result (if any) — which
carries the current `segment_id` — followed by a final
`recording_stopped` message with no `segment_id`. -/
theorem stop_recording_shape (oracle : Oracle) (st : HandlerConn) :
    ∃ pre m, (stop_recording oracle st).2 = pre ++ [m] ∧
      m.mtype = "recording_stopped" ∧ m.segment_id = none ∧
      (∀ x ∈ segIds pre, x = st.transcription_stream.segment_id) := by
  unfold stop_recording
  dsimp only
  rcases hgs : AudioProc.get_segment st.audio_processor with ⟨pst, sq⟩
  try simp only [hgs]
  try dsimp only
  cases sq with
  | none =>
    refine ⟨[], stopMsgOf st.transcription_stream, by simp, rfl, rfl,
      by simp [segIds]⟩
  | some seg =>
    rcases htr : transcribe_segment oracle st.transcription_stream
      seg 16000 true with ⟨ts2, msg⟩
    have hmi := transcribe_segment_msg_id oracle st.transcription_stream
      seg 16000 true
    rw [htr] at hmi
    dsimp only at hmi
    simp only [htr]
    try dsimp only
    refine ⟨[msg], stopMsgOf ts2, by simp, rfl, rfl, ?_⟩
    intro x hx
    rw [segIds_singleton, hmi.1] at hx
    simpa using hx

/-- Unfolding equation for `run_session`. -/
theorem run_session_eq (oracle : Oracle) (chunks : List (List ℕ)) :
    run_session oracle chunks =
      (chunks.foldl (sessionStep oracle) (start_recording initHandlerConn)).2 ++
      (stop_recording oracle
        (chunks.foldl (sessionStep oracle)
          (start_recording initHandlerConn)).1).2 := by
  rcases h0 : start_recording initHandlerConn with ⟨st1, m1⟩
  rcases h1 : chunks.foldl (sessionStep oracle) (st1, m1) with ⟨st2, m2⟩
  rcases h2 : stop_recording oracle st2 with ⟨st3, m3⟩
  simp [run_session, h0, h1, h2]

end WsHandler

/-- C8: over one whole recording session (start, any audio chunks, stop)
against any backend behaviour, the `segment_id` values carried by the
outbound messages are non-decreasing in emission order, and the final
message of the session is `recording_stopped`. -/
theorem C8_ordering (oracle : Transcription.Oracle)
    (chunks : List (List ℕ)) :
    List.Chain' (· ≤ ·)
      (WsHandler.segIds (WsHandler.run_session oracle chunks)) ∧
    (WsHandler.run_session oracle chunks).getLast?.map
      (fun m => m.mtype) = some "recording_stopped" := by
  rw [WsHandler.run_session_eq]
  have h0 : (WsHandler.start_recording WsHandler.initHandlerConn).2 =
      [{ mtype := "recording_started", segment_id := none, text := none,
         err := none }] := rfl
  have hinv := WsHandler.session_fold_inv oracle chunks
    (WsHandler.start_recording WsHandler.initHandlerConn).1
    (WsHandler.start_recording WsHandler.initHandlerConn).2
    (by rw [h0, WsHandler.segIds_singleton]; simp)
    (by rw [h0, WsHandler.segIds_singleton]; simp)
  rw [Prod.mk.eta] at hinv
  rcases WsHandler.stop_recording_shape oracle
    (chunks.foldl (WsHandler.sessionStep oracle)
      (WsHandler.start_recording WsHandler.initHandlerConn)).1
    with ⟨pre, m, hsplit, hmt, hmid, hpre⟩
  constructor
  · rw [hsplit, WsHandler.segIds_append, WsHandler.segIds_append]
    have hm : WsHandler.segIds [m] = [] := by
      rw [WsHandler.segIds_singleton, hmid]
      rfl
    rw [hm, List.append_nil]
    exact (WsHandler.chain_le_append _ _ _ hinv.1 hinv.2 hpre).1
  · rw [hsplit, ← List.append_assoc, List.getLast?_concat]
    simp [hmt]
